import Mathlib

/-!
Shallow embedding of `src/src/native/external/zlib-intel/dotnet_allocator_win.c`:
a guarded allocator (`zcalloc` / `zcfree`) that brackets every raw heap
allocation with a header cookie and a trailer cookie, validates the cookies on
free, and fast-fails the process on any metadata corruption.

Modelling choices:
* Memory is byte-addressable, `Mem := Nat → Nat`; every cell holds a byte value
  (values are truncated mod 256 on write).
* A `Platform` fixes the pointer width in bytes (`SIZE_T` / `PVOID`) and
  `MEMORY_ALLOCATION_ALIGNMENT`; `win64 = ⟨8, 16⟩` and `win32 = ⟨4, 8⟩` are the
  two instantiations of the source file.
* `EncodePointer` / `DecodePointer` are modelled as XOR with a process-wide
  secret key, a reversible process-local permutation of word values.
* The Raw Heap Provider (HeapAlloc / HeapFree on `s_allocHeap`) is an oracle:
  `zcalloc` receives the provider's reply (`Option Nat`, the raw block base or
  `none` for OOM) and records the request it made; `zcfree` receives the
  success bit of `HeapFree` and records the pointer and the memory state it
  passed to `HeapFree`.
* `__fastfail(FAST_FAIL_HEAP_METADATA_CORRUPTION)` is modelled by the dedicated
  fault value `Fault.heapMetadataCorruption` in the result; a result with
  `fault = some _` never returns control to the caller.
-/

namespace DotnetAllocator

/-- Byte-addressable memory: each address holds one byte value. -/
abbrev Mem := Nat → Nat

/-- Update one memory cell. -/
def upd (m : Mem) (a v : Nat) : Mem := fun x => if x = a then v else m x

/-- Read `n` bytes starting at `a`, little-endian, as one natural number. -/
def readBytes (m : Mem) : Nat → Nat → Nat
  | _, 0 => 0
  | a, n + 1 => m a % 256 + 256 * readBytes m (a + 1) n

/-- Write the `n` little-endian bytes of `v` starting at `a`. -/
def writeBytes : Mem → Nat → Nat → Nat → Mem
  | m, _, _, 0 => m
  | m, a, v, n + 1 => writeBytes (upd m a (v % 256)) (a + 1) (v / 256) n

/-- Zero the `n` bytes starting at `a` (the `HEAP_ZERO_MEMORY` effect and the
`memset(pCookie, 0, sizeof(*pCookie))` in `zcfree_trash_cookie`). -/
def zeroFillRegion (m : Mem) (a n : Nat) : Mem :=
  fun x => if a ≤ x ∧ x < a + n then 0 else m x

/-- A platform instantiation of the source: pointer width in bytes and
`MEMORY_ALLOCATION_ALIGNMENT`. -/
structure Platform where
  wordBytes : Nat
  align : Nat

/-- 64-bit Windows: 8-byte `SIZE_T`/`PVOID`, 16-byte allocation alignment. -/
def win64 : Platform := ⟨8, 16⟩

/-- 32-bit Windows: 4-byte `SIZE_T`/`PVOID`, 8-byte allocation alignment. -/
def win32 : Platform := ⟨4, 8⟩

/-- Number of machine-word values: `2 ^ (8 * wordBytes)`. -/
def Platform.wordSize (p : Platform) : Nat := 2 ^ (8 * p.wordBytes)

/-- The source file is compiled for 64-bit or 32-bit Windows. -/
def Platform.ok (p : Platform) : Prop := p = win64 ∨ p = win32

/-- `sizeof(DOTNET_ALLOC_COOKIE)`: a pointer-sized `CookieValue` plus a
pointer-sized `Size` union. -/
def sizeofCookie (p : Platform) : Nat := 2 * p.wordBytes

/-- `DOTNET_ALLOC_HEADER_COOKIE_SIZE_WITH_PADDING =
(sizeof(DOTNET_ALLOC_COOKIE) + MEMORY_ALLOCATION_ALIGNMENT - 1)
 & ~((SIZE_T)MEMORY_ALLOCATION_ALIGNMENT - 1)`.
For a power-of-two alignment, `~(align - 1)` as a `SIZE_T` is
`wordSize - align`. -/
def headerCookieSizeWithPadding (p : Platform) : Nat :=
  (sizeofCookie p + p.align - 1) &&& (p.wordSize - p.align)

/-- `DOTNET_ALLOC_TRAILER_COOKIE_SIZE = sizeof(DOTNET_ALLOC_COOKIE)`. -/
def trailerCookieSize (p : Platform) : Nat := sizeofCookie p

/-- Read one machine word (little-endian) at address `a`. -/
def readWord (p : Platform) (m : Mem) (a : Nat) : Nat :=
  readBytes m a p.wordBytes

/-- Write one machine word (little-endian) at address `a`. -/
def writeWord (p : Platform) (m : Mem) (a v : Nat) : Mem :=
  writeBytes m a v p.wordBytes

/-- Windows `EncodePointer`, modelled as XOR with a per-process secret key. -/
def EncodePointer (key v : Nat) : Nat := v ^^^ key

/-- Windows `DecodePointer`: the inverse of `EncodePointer`. -/
def DecodePointer (key v : Nat) : Nat := v ^^^ key

/-! ### The allocator, translated from `dotnet_allocator_win.c` -/

/-- The fault signature passed to `__fastfail`.  The source raises
`FAST_FAIL_HEAP_METADATA_CORRUPTION` (via `zcfree_cookie_check_failed`), a
code specific to heap-metadata corruption, distinct from any generic crash. -/
inductive Fault where
  | heapMetadataCorruption
  deriving DecidableEq

/-- Outcome of `zcalloc`:
* `ret`: the pointer returned to the caller (`none` = `NULL`);
* `mem`: memory after the call;
* `rawAllocRequest`: the `(byte count, zero fill?)` request passed to
  `HeapAlloc`, or `none` if `HeapAlloc` was never invoked. -/
structure ZcallocResult where
  ret : Option Nat
  mem : Mem
  rawAllocRequest : Option (Nat × Bool)

/-- `zcalloc(opaque, items, size)` from the source, for platform `p`, with
`EncodePointer` key `key`.  `rawAlloc` is the Raw Heap Provider's reply to the
one `HeapAlloc` request: `some base` on success (the raw block base address),
`none` for OOM.  The unused `opaque` parameter is dropped.

Faithful to the source:
* `dwFlags = (items == 1) ? HEAP_ZERO_MEMORY : 0`;
* if `sizeof(items) + sizeof(size) <= sizeof(SIZE_T)` (i.e. `4 + 4 ≤
  wordBytes`), the product is computed by plain `SIZE_T` multiplication
  (modulo `wordSize`); otherwise through `SizeTMult`, which fails exactly
  when the true product exceeds `SIZE_T_MAX`;
* `SizeTAdd(cbRequested, HEADER_WITH_PADDING + TRAILER)` fails exactly when
  the true sum exceeds `SIZE_T_MAX`;
* on success, the header cookie is written at the raw base (`CookieValue`
  first, then clear `Size.RawValue`), and the trailer cookie at
  `pReturnToCaller + cbRequested` (`CookieValue`, then
  `Size.EncodedValue = EncodePointer(cbRequested)`). -/
def zcalloc (p : Platform) (key : Nat) (rawAlloc : Option Nat) (m : Mem)
    (items size : Nat) : ZcallocResult :=
  let dwZeroFill : Bool := items == 1
  let cbRequestedOpt : Option Nat :=
    if 4 + 4 ≤ p.wordBytes then
      some ((items * size) % p.wordSize)
    else if items * size < p.wordSize then some (items * size) else none
  match cbRequestedOpt with
  | none => ⟨none, m, none⟩
  | some cbRequested =>
    if cbRequested + (headerCookieSizeWithPadding p + trailerCookieSize p)
        < p.wordSize then
      let cbActualAllocationSize :=
        cbRequested + (headerCookieSizeWithPadding p + trailerCookieSize p)
      match rawAlloc with
      | none => ⟨none, m, some (cbActualAllocationSize, dwZeroFill)⟩
      | some base =>
        let m1 := if dwZeroFill then zeroFillRegion m base cbActualAllocationSize
                  else m
        let m2 := writeWord p m1 base (EncodePointer key base)
        let m3 := writeWord p m2 (base + p.wordBytes) cbRequested
        let pReturnToCaller := base + headerCookieSizeWithPadding p
        let trailerAddr := pReturnToCaller + cbRequested
        let m4 := writeWord p m3 trailerAddr (EncodePointer key trailerAddr)
        let m5 := writeWord p m4 (trailerAddr + p.wordBytes)
                    (EncodePointer key cbRequested)
        ⟨some pReturnToCaller, m5, some (cbActualAllocationSize, dwZeroFill)⟩
    else ⟨none, m, none⟩

/-- `zcfree_trash_cookie`: `memset(pCookie, 0, sizeof(*pCookie))` followed by
`pCookie->CookieValue = (PVOID)(SIZE_T)0xDEADBEEF`. -/
def zcfree_trash_cookie (p : Platform) (m : Mem) (a : Nat) : Mem :=
  writeWord p (zeroFillRegion m a (sizeofCookie p)) a 0xDEADBEEF

/-- Outcome of `zcfree`:
* `fault`: `some Fault.heapMetadataCorruption` means the process was
  terminated by `__fastfail(FAST_FAIL_HEAP_METADATA_CORRUPTION)` and control
  never returned to the caller; `none` means a normal return;
* `mem`: memory at return (or at the fault);
* `rawFree`: the pointer and the memory state passed to `HeapFree`, or `none`
  if `HeapFree` was never invoked. -/
structure ZcfreeResult where
  fault : Option Fault
  mem : Mem
  rawFree : Option (Nat × Mem)

/-- `zcfree(opaque, ptr)` from the source, for platform `p`, with
`EncodePointer` key `key`.  `heapFreeOk` is the Raw Heap Provider's success
bit for the one `HeapFree` call.  `NULL` is address `0`.  The unused `opaque`
parameter is dropped.

Faithful to the source: null is a no-op; the header cookie sits at
`ptr - HEADER_WITH_PADDING`; each of the three checks jumps to `Fail`
(`zcfree_cookie_check_failed`, i.e. the fast-fail) when it does not hold, and
only after all three pass are both cookies trashed and the header address
passed to `HeapFree`; a failing `HeapFree` also jumps to `Fail`. -/
def zcfree (p : Platform) (key : Nat) (heapFreeOk : Bool) (m : Mem)
    (ptr : Nat) : ZcfreeResult :=
  if ptr = 0 then ⟨none, m, none⟩
  else
    let pHeaderCookie := ptr - headerCookieSizeWithPadding p
    if DecodePointer key (readWord p m pHeaderCookie) ≠ pHeaderCookie then
      ⟨some Fault.heapMetadataCorruption, m, none⟩
    else
      let cbRequested := readWord p m (pHeaderCookie + p.wordBytes)
      let pTrailerCookie := ptr + cbRequested
      if DecodePointer key (readWord p m pTrailerCookie) ≠ pTrailerCookie then
        ⟨some Fault.heapMetadataCorruption, m, none⟩
      else if DecodePointer key (readWord p m (pTrailerCookie + p.wordBytes))
          ≠ cbRequested then
        ⟨some Fault.heapMetadataCorruption, m, none⟩
      else
        let m1 := zcfree_trash_cookie p m pHeaderCookie
        let m2 := zcfree_trash_cookie p m1 pTrailerCookie
        if heapFreeOk then ⟨none, m2, some (pHeaderCookie, m2)⟩
        else ⟨some Fault.heapMetadataCorruption, m2, some (pHeaderCookie, m2)⟩

/-- The three cookie checks of `zcfree` on a non-null pointer, as one
predicate over the pre-state. -/
def cookieChecksPass (p : Platform) (key : Nat) (m : Mem) (ptr : Nat) : Prop :=
  DecodePointer key (readWord p m (ptr - headerCookieSizeWithPadding p))
      = ptr - headerCookieSizeWithPadding p
  ∧ DecodePointer key
        (readWord p m
          (ptr + readWord p m (ptr - headerCookieSizeWithPadding p + p.wordBytes)))
      = ptr + readWord p m (ptr - headerCookieSizeWithPadding p + p.wordBytes)
  ∧ DecodePointer key
        (readWord p m
          (ptr + readWord p m (ptr - headerCookieSizeWithPadding p + p.wordBytes)
            + p.wordBytes))
      = readWord p m (ptr - headerCookieSizeWithPadding p + p.wordBytes)

instance (p : Platform) (key : Nat) (m : Mem) (ptr : Nat) :
    Decidable (cookieChecksPass p key m ptr) := by
  unfold cookieChecksPass
  infer_instance

/-- A caller writing `n` data bytes into the user region at `a` (the caller's
use of the returned pointer; not part of the allocator itself). -/
def writeUserBytes (m : Mem) (a n : Nat) (data : Nat → Nat) : Mem :=
  fun x => if a ≤ x ∧ x < a + n then data (x - a) else m x


/-! ### Byte-level laws -/

theorem upd_self (m : Mem) (a v : Nat) : upd m a v a = v := by
  simp [upd]

theorem upd_other (m : Mem) (a v x : Nat) (h : x ≠ a) : upd m a v x = m x := by
  simp [upd, h]

theorem writeBytes_apply_out :
    ∀ (n : Nat) (m : Mem) (a v x : Nat), (x < a ∨ a + n ≤ x) →
      writeBytes m a v n x = m x := by
  intro n
  induction n with
  | zero => intro m a v x _; rfl
  | succ n ih =>
    intro m a v x hx
    show writeBytes (upd m a (v % 256)) (a + 1) (v / 256) n x = m x
    rw [ih (upd m a (v % 256)) (a + 1) (v / 256) x (by omega)]
    exact upd_other m a (v % 256) x (by omega)

theorem readBytes_congr :
    ∀ (n : Nat) (m₁ m₂ : Mem) (a : Nat),
      (∀ i, i < n → m₁ (a + i) = m₂ (a + i)) →
      readBytes m₁ a n = readBytes m₂ a n := by
  intro n
  induction n with
  | zero => intro m₁ m₂ a _; rfl
  | succ n ih =>
    intro m₁ m₂ a h
    show m₁ a % 256 + 256 * readBytes m₁ (a + 1) n
        = m₂ a % 256 + 256 * readBytes m₂ (a + 1) n
    have h0 : m₁ a = m₂ a := by
      have := h 0 (by omega); simpa using this
    have hrest : readBytes m₁ (a + 1) n = readBytes m₂ (a + 1) n := by
      apply ih
      intro i hi
      have := h (i + 1) (by omega)
      convert this using 2 <;> omega
    rw [h0, hrest]

theorem readBytes_writeBytes :
    ∀ (n : Nat) (m : Mem) (a v : Nat),
      readBytes (writeBytes m a v n) a n = v % 256 ^ n := by
  intro n
  induction n with
  | zero => intro m a v; simp [readBytes, writeBytes, Nat.mod_one]
  | succ n ih =>
    intro m a v
    show readBytes (writeBytes (upd m a (v % 256)) (a + 1) (v / 256) n) a (n + 1)
        = v % 256 ^ (n + 1)
    rw [show readBytes (writeBytes (upd m a (v % 256)) (a + 1) (v / 256) n) a (n + 1)
        = (writeBytes (upd m a (v % 256)) (a + 1) (v / 256) n) a % 256
          + 256 * readBytes (writeBytes (upd m a (v % 256)) (a + 1) (v / 256) n) (a + 1) n
        from rfl]
    rw [writeBytes_apply_out n (upd m a (v % 256)) (a + 1) (v / 256) a (by omega)]
    rw [upd_self, ih]
    rw [Nat.mod_mod_of_dvd v dvd_rfl]
    rw [pow_succ, Nat.mul_comm (256 ^ n) 256, Nat.mod_mul]

theorem readBytes_lt :
    ∀ (n : Nat) (m : Mem) (a : Nat), readBytes m a n < 256 ^ n := by
  intro n
  induction n with
  | zero => intro m a; simp [readBytes]
  | succ n ih =>
    intro m a
    show m a % 256 + 256 * readBytes m (a + 1) n < 256 ^ (n + 1)
    have h1 : m a % 256 < 256 := Nat.mod_lt _ (by omega)
    have h2 : readBytes m (a + 1) n < 256 ^ n := ih m (a + 1)
    have h3 : 256 ^ (n + 1) = 256 * 256 ^ n := by rw [pow_succ]; ring
    omega

theorem readBytes_zero :
    ∀ (n : Nat) (m : Mem) (a : Nat), (∀ i, i < n → m (a + i) = 0) →
      readBytes m a n = 0 := by
  intro n
  induction n with
  | zero => intro m a _; rfl
  | succ n ih =>
    intro m a h
    show m a % 256 + 256 * readBytes m (a + 1) n = 0
    have h0 : m a = 0 := by have := h 0 (by omega); simpa using this
    have hrest : readBytes m (a + 1) n = 0 := by
      apply ih
      intro i hi
      have := h (i + 1) (by omega)
      convert this using 2
      omega
    rw [h0, hrest]

theorem zeroFillRegion_apply_in (m : Mem) (a n x : Nat)
    (h : a ≤ x ∧ x < a + n) : zeroFillRegion m a n x = 0 := by
  simp [zeroFillRegion, h]

theorem zeroFillRegion_apply_out (m : Mem) (a n x : Nat)
    (h : x < a ∨ a + n ≤ x) : zeroFillRegion m a n x = m x := by
  simp only [zeroFillRegion]
  rw [if_neg]
  omega

/-! ### Word-level laws -/

theorem wordSize_eq (p : Platform) : p.wordSize = 256 ^ p.wordBytes := by
  show 2 ^ (8 * p.wordBytes) = 256 ^ p.wordBytes
  rw [pow_mul]
  norm_num

theorem readWord_lt (p : Platform) (m : Mem) (a : Nat) :
    readWord p m a < p.wordSize := by
  rw [wordSize_eq]; exact readBytes_lt p.wordBytes m a

theorem writeWord_apply_out (p : Platform) (m : Mem) (a v x : Nat)
    (h : x < a ∨ a + p.wordBytes ≤ x) : writeWord p m a v x = m x :=
  writeBytes_apply_out p.wordBytes m a v x h

theorem readWord_writeWord_self (p : Platform) (m : Mem) (a v : Nat)
    (hv : v < p.wordSize) : readWord p (writeWord p m a v) a = v := by
  show readBytes (writeBytes m a v p.wordBytes) a p.wordBytes = v
  rw [readBytes_writeBytes]
  rw [← wordSize_eq]
  exact Nat.mod_eq_of_lt hv

theorem readWord_congr (p : Platform) (m₁ m₂ : Mem) (a : Nat)
    (h : ∀ i, i < p.wordBytes → m₁ (a + i) = m₂ (a + i)) :
    readWord p m₁ a = readWord p m₂ a :=
  readBytes_congr p.wordBytes m₁ m₂ a h

theorem readWord_writeWord_disjoint (p : Platform) (m : Mem) (a b v : Nat)
    (h : a + p.wordBytes ≤ b ∨ b + p.wordBytes ≤ a) :
    readWord p (writeWord p m b v) a = readWord p m a := by
  apply readWord_congr
  intro i hi
  exact writeBytes_apply_out p.wordBytes m b v (a + i) (by omega)

theorem DecodePointer_EncodePointer (key v : Nat) :
    DecodePointer key (EncodePointer key v) = v := by
  show v ^^^ key ^^^ key = v
  exact Nat.xor_cancel_right key v

theorem EncodePointer_lt (p : Platform) (key v : Nat)
    (hk : key < p.wordSize) (hv : v < p.wordSize) :
    EncodePointer key v < p.wordSize := by
  exact Nat.xor_lt_two_pow hv hk

theorem writeUserBytes_apply_in (m : Mem) (a n : Nat) (data : Nat → Nat)
    (i : Nat) (hi : i < n) : writeUserBytes m a n data (a + i) = data i := by
  simp only [writeUserBytes]
  rw [if_pos (by omega)]
  congr 1
  omega

theorem writeUserBytes_apply_out (m : Mem) (a n : Nat) (data : Nat → Nat)
    (x : Nat) (hx : x < a ∨ a + n ≤ x) : writeUserBytes m a n data x = m x := by
  simp only [writeUserBytes]
  rw [if_neg (by omega)]

/-! ### Derived facts about the two platform instantiations -/

theorem Platform.ok_facts {p : Platform} (hp : p.ok) :
    headerCookieSizeWithPadding p = 2 * p.wordBytes
    ∧ 4 ≤ p.wordBytes
    ∧ 2 ^ 32 ≤ p.wordSize
    ∧ headerCookieSizeWithPadding p + trailerCookieSize p < p.wordSize := by
  rcases hp with h | h
  · subst h
    exact ⟨by decide, by decide, by decide, by decide⟩
  · subst h
    exact ⟨by decide, by decide, by decide, by decide⟩

/-! ### Unfolding lemmas for `zcalloc` -/

/-- On a non-overflowing request with a successful raw allocation, `zcalloc`
returns `base + headerCookieSizeWithPadding` and performs exactly the four
cookie-field writes on top of the (possibly zero-filled) raw block. -/
theorem zcalloc_some_eq (p : Platform) (key base : Nat) (m : Mem)
    (items size : Nat)
    (hNoOv : items * size + (headerCookieSizeWithPadding p + trailerCookieSize p)
        < p.wordSize) :
    zcalloc p key (some base) m items size =
      ⟨some (base + headerCookieSizeWithPadding p),
       writeWord p
         (writeWord p
           (writeWord p
             (writeWord p
               (if items == 1 then
                 zeroFillRegion m base
                   (items * size
                     + (headerCookieSizeWithPadding p + trailerCookieSize p))
                else m)
               base (EncodePointer key base))
             (base + p.wordBytes) (items * size))
           (base + headerCookieSizeWithPadding p + items * size)
           (EncodePointer key
             (base + headerCookieSizeWithPadding p + items * size)))
         (base + headerCookieSizeWithPadding p + items * size + p.wordBytes)
         (EncodePointer key (items * size)),
       some (items * size + (headerCookieSizeWithPadding p + trailerCookieSize p),
         items == 1)⟩ := by
  by_cases h8 : 4 + 4 ≤ p.wordBytes
  · simp only [zcalloc, if_pos h8,
      Nat.mod_eq_of_lt (show items * size < p.wordSize by omega), if_pos hNoOv]
  · simp only [zcalloc, if_neg h8,
      if_pos (show items * size < p.wordSize by omega), if_pos hNoOv]

/-- Whatever the provider replies, a non-overflowing request reaches
`HeapAlloc` with exactly `cbRequested + (header + trailer)` bytes and the
`HEAP_ZERO_MEMORY` flag iff `items == 1`. -/
theorem zcalloc_request_eq (p : Platform) (key : Nat) (rawAlloc : Option Nat)
    (m : Mem) (items size : Nat)
    (hNoOv : items * size + (headerCookieSizeWithPadding p + trailerCookieSize p)
        < p.wordSize) :
    (zcalloc p key rawAlloc m items size).rawAllocRequest =
      some (items * size + (headerCookieSizeWithPadding p + trailerCookieSize p),
        items == 1) := by
  by_cases h8 : 4 + 4 ≤ p.wordBytes
  · cases rawAlloc with
    | none =>
      simp only [zcalloc, if_pos h8,
        Nat.mod_eq_of_lt (show items * size < p.wordSize by omega), if_pos hNoOv]
    | some base =>
      simp only [zcalloc, if_pos h8,
        Nat.mod_eq_of_lt (show items * size < p.wordSize by omega), if_pos hNoOv]
  · cases rawAlloc with
    | none =>
      simp only [zcalloc, if_neg h8,
        if_pos (show items * size < p.wordSize by omega), if_pos hNoOv]
    | some base =>
      simp only [zcalloc, if_neg h8,
        if_pos (show items * size < p.wordSize by omega), if_pos hNoOv]

/-- If the checked size arithmetic overflows, `zcalloc` returns `NULL`
without touching memory and without calling `HeapAlloc`. -/
theorem zcalloc_overflow_eq (p : Platform) (key : Nat) (rawAlloc : Option Nat)
    (m : Mem) (items size : Nat) (hp : p.ok)
    (hitems : items < 2 ^ 32) (hsize : size < 2 ^ 32)
    (hOv : p.wordSize
        ≤ items * size + (headerCookieSizeWithPadding p + trailerCookieSize p)) :
    zcalloc p key rawAlloc m items size = ⟨none, m, none⟩ := by
  by_cases h8 : 4 + 4 ≤ p.wordBytes
  · -- The plain-multiply branch runs only on the 64-bit platform, where
    -- 32-bit `items`/`size` can never overflow the checked addition either,
    -- so this case contradicts `hOv`.
    exfalso
    rcases hp with h | h
    · subst h
      have h1 : items * size ≤ 4294967295 * 4294967295 :=
        Nat.mul_le_mul (by omega) (by omega)
      have h2 : headerCookieSizeWithPadding win64 + trailerCookieSize win64
          = 32 := by decide
      have h3 : win64.wordSize = 18446744073709551616 := by decide
      rw [h2, h3] at hOv
      omega
    · subst h
      exact absurd h8 (by decide)
  · by_cases hmul : items * size < p.wordSize
    · simp only [zcalloc, if_neg h8, if_pos hmul,
        if_neg (show ¬ items * size
          + (headerCookieSizeWithPadding p + trailerCookieSize p)
          < p.wordSize by omega)]
    · simp only [zcalloc, if_neg h8, if_neg hmul]

/-! ### Reading back the cookies written by `zcalloc` -/

theorem readWord_zeroFillRegion_disjoint (p : Platform) (m : Mem) (a n x : Nat)
    (h : x + p.wordBytes ≤ a ∨ a + n ≤ x) :
    readWord p (zeroFillRegion m a n) x = readWord p m x := by
  apply readWord_congr
  intro i hi
  exact zeroFillRegion_apply_out m a n (x + i) (by omega)

theorem readWord_zeroFillRegion_in (p : Platform) (m : Mem) (a n x : Nat)
    (h1 : a ≤ x) (h2 : x + p.wordBytes ≤ a + n) :
    readWord p (zeroFillRegion m a n) x = 0 := by
  apply readBytes_zero
  intro i hi
  exact zeroFillRegion_apply_in m a n (x + i) (by omega)

/-- Reading the four cookie fields back from the write chain a successful
`zcalloc` performs, and framing of the user region. -/
theorem writeChain_reads (p : Platform) (key base cb : Nat) (m1 M : Mem)
    (h2 : headerCookieSizeWithPadding p = 2 * p.wordBytes)
    (hwb : 0 < p.wordBytes)
    (hkey : key < p.wordSize)
    (hcb : cb < p.wordSize)
    (hfit : base + headerCookieSizeWithPadding p + cb + 2 * p.wordBytes
        ≤ p.wordSize)
    (hM : M = writeWord p (writeWord p (writeWord p (writeWord p m1 base
        (EncodePointer key base)) (base + p.wordBytes) cb)
        (base + headerCookieSizeWithPadding p + cb)
        (EncodePointer key (base + headerCookieSizeWithPadding p + cb)))
        (base + headerCookieSizeWithPadding p + cb + p.wordBytes)
        (EncodePointer key cb)) :
    readWord p M base = EncodePointer key base
    ∧ readWord p M (base + p.wordBytes) = cb
    ∧ readWord p M (base + headerCookieSizeWithPadding p + cb)
        = EncodePointer key (base + headerCookieSizeWithPadding p + cb)
    ∧ readWord p M (base + headerCookieSizeWithPadding p + cb + p.wordBytes)
        = EncodePointer key cb
    ∧ ∀ x, base + headerCookieSizeWithPadding p ≤ x →
        x < base + headerCookieSizeWithPadding p + cb → M x = m1 x := by
  subst hM
  have hbase : base < p.wordSize := by omega
  have htr : base + headerCookieSizeWithPadding p + cb < p.wordSize := by omega
  refine ⟨?_, ?_, ?_, ?_, ?_⟩
  · rw [readWord_writeWord_disjoint _ _ _ _ _ (by omega),
      readWord_writeWord_disjoint _ _ _ _ _ (by omega),
      readWord_writeWord_disjoint _ _ _ _ _ (by omega),
      readWord_writeWord_self _ _ _ _ (EncodePointer_lt p key base hkey hbase)]
  · rw [readWord_writeWord_disjoint _ _ _ _ _ (by omega),
      readWord_writeWord_disjoint _ _ _ _ _ (by omega),
      readWord_writeWord_self _ _ _ _ hcb]
  · rw [readWord_writeWord_disjoint _ _ _ _ _ (by omega),
      readWord_writeWord_self _ _ _ _
        (EncodePointer_lt p key _ hkey htr)]
  · rw [readWord_writeWord_self _ _ _ _ (EncodePointer_lt p key cb hkey hcb)]
  · intro x hx1 hx2
    rw [writeWord_apply_out _ _ _ _ _ (by omega),
      writeWord_apply_out _ _ _ _ _ (by omega),
      writeWord_apply_out _ _ _ _ _ (by omega),
      writeWord_apply_out _ _ _ _ _ (by omega)]

/-- The post-state of a successful, non-overflowing `zcalloc`: the four cookie
fields read back as written, and the user region is zero-filled when
`items = 1` and untouched otherwise. -/
theorem zcalloc_mem_reads (p : Platform) (key base : Nat) (m : Mem)
    (items size : Nat) (hp : p.ok) (hkey : key < p.wordSize)
    (hNoOv : items * size + (headerCookieSizeWithPadding p + trailerCookieSize p)
        < p.wordSize)
    (hfit : base + (headerCookieSizeWithPadding p + items * size
        + trailerCookieSize p) ≤ p.wordSize) :
    readWord p (zcalloc p key (some base) m items size).mem base
        = EncodePointer key base
    ∧ readWord p (zcalloc p key (some base) m items size).mem
        (base + p.wordBytes) = items * size
    ∧ readWord p (zcalloc p key (some base) m items size).mem
        (base + headerCookieSizeWithPadding p + items * size)
        = EncodePointer key (base + headerCookieSizeWithPadding p + items * size)
    ∧ readWord p (zcalloc p key (some base) m items size).mem
        (base + headerCookieSizeWithPadding p + items * size + p.wordBytes)
        = EncodePointer key (items * size)
    ∧ ∀ x, base + headerCookieSizeWithPadding p ≤ x →
        x < base + headerCookieSizeWithPadding p + items * size →
        (zcalloc p key (some base) m items size).mem x
          = if items = 1 then 0 else m x := by
  obtain ⟨h2, hwb4, hws, hover⟩ := Platform.ok_facts hp
  have htrc : trailerCookieSize p = 2 * p.wordBytes := rfl
  rw [zcalloc_some_eq p key base m items size hNoOv]
  dsimp only
  obtain ⟨r1, r2, r3, r4, r5⟩ := writeChain_reads p key base (items * size)
    (if items == 1 then
      zeroFillRegion m base
        (items * size + (headerCookieSizeWithPadding p + trailerCookieSize p))
     else m) _
    h2 (by omega) hkey (by omega) (by omega) rfl
  refine ⟨r1, r2, r3, r4, ?_⟩
  intro x hx1 hx2
  rw [r5 x hx1 hx2]
  by_cases h1 : items = 1
  · rw [if_pos h1]
    have hb : (items == 1) = true := by simp [h1]
    rw [hb]
    exact zeroFillRegion_apply_in m base _ x (by omega)
  · rw [if_neg h1]
    have hb : (items == 1) = false := by simp [h1]
    rw [hb]
    rfl

/-! ### Dispatch lemmas for `zcfree` -/

/-- If any of the three cookie checks fails on a non-null pointer, `zcfree`
fast-fails with the heap-metadata-corruption signature, leaves memory
untouched, and never calls `HeapFree`. -/
theorem zcfree_not_pass_eq (p : Platform) (key : Nat) (heapFreeOk : Bool)
    (m : Mem) (ptr : Nat) (hptr : ptr ≠ 0)
    (h : ¬ cookieChecksPass p key m ptr) :
    zcfree p key heapFreeOk m ptr
      = ⟨some Fault.heapMetadataCorruption, m, none⟩ := by
  simp only [zcfree]
  rw [if_neg hptr]
  by_cases c1 : DecodePointer key
      (readWord p m (ptr - headerCookieSizeWithPadding p))
      = ptr - headerCookieSizeWithPadding p
  · rw [if_neg (not_not_intro c1)]
    by_cases c2 : DecodePointer key
        (readWord p m
          (ptr + readWord p m
            (ptr - headerCookieSizeWithPadding p + p.wordBytes)))
        = ptr + readWord p m (ptr - headerCookieSizeWithPadding p + p.wordBytes)
    · rw [if_neg (not_not_intro c2)]
      by_cases c3 : DecodePointer key
          (readWord p m
            (ptr + readWord p m
              (ptr - headerCookieSizeWithPadding p + p.wordBytes) + p.wordBytes))
          = readWord p m (ptr - headerCookieSizeWithPadding p + p.wordBytes)
      · exact absurd ⟨c1, c2, c3⟩ h
      · rw [if_pos c3]
    · rw [if_pos c2]
  · rw [if_pos c1]

/-- If all three cookie checks pass on a non-null pointer, `zcfree` trashes
both cookies and hands the tombstoned memory and the header address to
`HeapFree`; the fault is raised exactly when `HeapFree` reports failure. -/
theorem zcfree_pass_eq (p : Platform) (key : Nat) (heapFreeOk : Bool)
    (m : Mem) (ptr : Nat) (hptr : ptr ≠ 0)
    (h : cookieChecksPass p key m ptr) :
    zcfree p key heapFreeOk m ptr
      = ⟨if heapFreeOk then none else some Fault.heapMetadataCorruption,
         zcfree_trash_cookie p
           (zcfree_trash_cookie p m (ptr - headerCookieSizeWithPadding p))
           (ptr + readWord p m
             (ptr - headerCookieSizeWithPadding p + p.wordBytes)),
         some (ptr - headerCookieSizeWithPadding p,
           zcfree_trash_cookie p
             (zcfree_trash_cookie p m (ptr - headerCookieSizeWithPadding p))
             (ptr + readWord p m
               (ptr - headerCookieSizeWithPadding p + p.wordBytes)))⟩ := by
  obtain ⟨c1, c2, c3⟩ := h
  simp only [zcfree]
  rw [if_neg hptr, if_neg (not_not_intro c1), if_neg (not_not_intro c2),
    if_neg (not_not_intro c3)]
  cases heapFreeOk <;> simp

/-- Reading the tombstones back after both cookies of an allocation have been
trashed: token fields hold `0xDEADBEEF`, size fields hold `0`. -/
theorem trash2_reads (p : Platform) (m : Mem) (hdr tr : Nat)
    (hwb : 0 < p.wordBytes)
    (hdead : 0xDEADBEEF < p.wordSize)
    (hsep : hdr + 2 * p.wordBytes ≤ tr) :
    readWord p (zcfree_trash_cookie p (zcfree_trash_cookie p m hdr) tr) hdr
        = 0xDEADBEEF
    ∧ readWord p (zcfree_trash_cookie p (zcfree_trash_cookie p m hdr) tr)
        (hdr + p.wordBytes) = 0
    ∧ readWord p (zcfree_trash_cookie p (zcfree_trash_cookie p m hdr) tr) tr
        = 0xDEADBEEF
    ∧ readWord p (zcfree_trash_cookie p (zcfree_trash_cookie p m hdr) tr)
        (tr + p.wordBytes) = 0 := by
  have hsc : sizeofCookie p = 2 * p.wordBytes := rfl
  refine ⟨?_, ?_, ?_, ?_⟩
  · show readWord p (writeWord p (zeroFillRegion (zcfree_trash_cookie p m hdr)
        tr (sizeofCookie p)) tr 0xDEADBEEF) hdr = 0xDEADBEEF
    rw [readWord_writeWord_disjoint _ _ _ _ _ (by omega),
      readWord_zeroFillRegion_disjoint _ _ _ _ _ (by omega)]
    show readWord p (writeWord p (zeroFillRegion m hdr (sizeofCookie p)) hdr
        0xDEADBEEF) hdr = 0xDEADBEEF
    rw [readWord_writeWord_self _ _ _ _ hdead]
  · show readWord p (writeWord p (zeroFillRegion (zcfree_trash_cookie p m hdr)
        tr (sizeofCookie p)) tr 0xDEADBEEF) (hdr + p.wordBytes) = 0
    rw [readWord_writeWord_disjoint _ _ _ _ _ (by omega),
      readWord_zeroFillRegion_disjoint _ _ _ _ _ (by omega)]
    show readWord p (writeWord p (zeroFillRegion m hdr (sizeofCookie p)) hdr
        0xDEADBEEF) (hdr + p.wordBytes) = 0
    rw [readWord_writeWord_disjoint _ _ _ _ _ (by omega),
      readWord_zeroFillRegion_in _ _ _ _ _ (by omega) (by omega)]
  · show readWord p (writeWord p (zeroFillRegion (zcfree_trash_cookie p m hdr)
        tr (sizeofCookie p)) tr 0xDEADBEEF) tr = 0xDEADBEEF
    rw [readWord_writeWord_self _ _ _ _ hdead]
  · show readWord p (writeWord p (zeroFillRegion (zcfree_trash_cookie p m hdr)
        tr (sizeofCookie p)) tr 0xDEADBEEF) (tr + p.wordBytes) = 0
    rw [readWord_writeWord_disjoint _ _ _ _ _ (by omega),
      readWord_zeroFillRegion_in _ _ _ _ _ (by omega) (by omega)]

/-- After a successful, non-overflowing `zcalloc`, all three cookie checks of
`zcfree` pass on the returned pointer. -/
theorem cookieChecksPass_after_zcalloc (p : Platform) (key base : Nat)
    (m : Mem) (items size : Nat) (hp : p.ok) (hkey : key < p.wordSize)
    (hNoOv : items * size + (headerCookieSizeWithPadding p + trailerCookieSize p)
        < p.wordSize)
    (hfit : base + (headerCookieSizeWithPadding p + items * size
        + trailerCookieSize p) ≤ p.wordSize) :
    cookieChecksPass p key (zcalloc p key (some base) m items size).mem
      (base + headerCookieSizeWithPadding p) := by
  obtain ⟨h2, hwb4, hws, hover⟩ := Platform.ok_facts hp
  obtain ⟨r1, r2, r3, r4, r5⟩ :=
    zcalloc_mem_reads p key base m items size hp hkey hNoOv hfit
  have hsub : base + headerCookieSizeWithPadding p - headerCookieSizeWithPadding p
      = base := by omega
  unfold cookieChecksPass
  rw [hsub]
  refine ⟨?_, ?_, ?_⟩
  · rw [r1, DecodePointer_EncodePointer]
  · rw [r2, r3, DecodePointer_EncodePointer]
  · rw [r2, r4, DecodePointer_EncodePointer]

/-- The mask `(sizeof cookie + align - 1) & ~(align - 1)` is the cookie size
rounded up to the platform allocation alignment. -/
theorem headerCookieSizeWithPadding_round {p : Platform} (hp : p.ok) :
    p.align * ((sizeofCookie p + p.align - 1) / p.align)
      = headerCookieSizeWithPadding p := by
  rcases hp with h | h
  · subst h; decide
  · subst h; decide

/-! ### The claims -/

/-- C1: for every `(item_count, item_size)` whose size arithmetic does not
overflow and for which the raw allocation succeeds (`rawAlloc = some base`),
`zcalloc` followed immediately by `zcfree` on the returned pointer completes
without the fatal corruption path: all three cookie checks pass and `zcfree`
returns normally (`fault = none`). -/
theorem claim1_alloc_then_free_ok (p : Platform) (key base : Nat) (m : Mem)
    (items size : Nat) (hp : p.ok) (hkey : key < p.wordSize)
    (hNoOv : items * size + (headerCookieSizeWithPadding p + trailerCookieSize p)
        < p.wordSize)
    (hfit : base + (headerCookieSizeWithPadding p + items * size
        + trailerCookieSize p) ≤ p.wordSize) :
    (zcalloc p key (some base) m items size).ret
        = some (base + headerCookieSizeWithPadding p)
    ∧ cookieChecksPass p key (zcalloc p key (some base) m items size).mem
        (base + headerCookieSizeWithPadding p)
    ∧ (zcfree p key true (zcalloc p key (some base) m items size).mem
        (base + headerCookieSizeWithPadding p)).fault = none := by
  obtain ⟨h2, hwb4, hws, hover⟩ := Platform.ok_facts hp
  have hpass := cookieChecksPass_after_zcalloc p key base m items size hp hkey
    hNoOv hfit
  refine ⟨?_, hpass, ?_⟩
  · rw [zcalloc_some_eq p key base m items size hNoOv]
  · rw [zcfree_pass_eq p key true _ _ (by omega) hpass]
    rfl

/-- C1 witness: a concrete 6-byte allocation at raw base 64 on win64. -/
theorem claim1_witness :
    win64.ok
    ∧ (5 : Nat) < win64.wordSize
    ∧ 3 * 2 + (headerCookieSizeWithPadding win64 + trailerCookieSize win64)
        < win64.wordSize
    ∧ 64 + (headerCookieSizeWithPadding win64 + 3 * 2 + trailerCookieSize win64)
        ≤ win64.wordSize
    ∧ ((zcalloc win64 5 (some 64) (fun _ => 0) 3 2).ret
          = some (64 + headerCookieSizeWithPadding win64)
        ∧ cookieChecksPass win64 5 (zcalloc win64 5 (some 64) (fun _ => 0) 3 2).mem
            (64 + headerCookieSizeWithPadding win64)
        ∧ (zcfree win64 5 true (zcalloc win64 5 (some 64) (fun _ => 0) 3 2).mem
            (64 + headerCookieSizeWithPadding win64)).fault = none) :=
  ⟨Or.inl rfl, by decide, by decide, by decide,
    claim1_alloc_then_free_ok win64 5 64 (fun _ => 0) 3 2 (Or.inl rfl)
      (by decide) (by decide) (by decide)⟩

/-- C2: on a non-null pointer, any failing cookie check makes `zcfree`
fast-fail with the heap-metadata-corruption signature without ever invoking
the raw free; and if the checks pass but `HeapFree` reports failure, the
process also fast-fails with the same signature (after the raw free was
invoked).  A `some` fault means control never returns to the caller. -/
theorem claim2_corruption_fatal (p : Platform) (key : Nat) (heapFreeOk : Bool)
    (m : Mem) (ptr : Nat) (hptr : ptr ≠ 0) :
    (¬ cookieChecksPass p key m ptr →
      (zcfree p key heapFreeOk m ptr).fault = some Fault.heapMetadataCorruption
      ∧ (zcfree p key heapFreeOk m ptr).rawFree = none)
    ∧ (cookieChecksPass p key m ptr → heapFreeOk = false →
      (zcfree p key heapFreeOk m ptr).fault = some Fault.heapMetadataCorruption
      ∧ (zcfree p key heapFreeOk m ptr).rawFree ≠ none) := by
  constructor
  · intro h
    rw [zcfree_not_pass_eq p key heapFreeOk m ptr hptr h]
    exact ⟨rfl, rfl⟩
  · intro h hfo
    subst hfo
    rw [zcfree_pass_eq p key false m ptr hptr h]
    exact ⟨rfl, by simp⟩

/-- C2 witness: freeing a healthy allocation whose `HeapFree` reports failure
fast-fails with the heap-metadata-corruption signature. -/
theorem claim2_witness :
    (80 : Nat) ≠ 0
    ∧ cookieChecksPass win64 5 (zcalloc win64 5 (some 64) (fun _ => 0) 3 2).mem 80
    ∧ (zcfree win64 5 false (zcalloc win64 5 (some 64) (fun _ => 0) 3 2).mem
        80).fault = some Fault.heapMetadataCorruption :=
  ⟨by decide, by decide,
    ((claim2_corruption_fatal win64 5 false
        (zcalloc win64 5 (some 64) (fun _ => 0) 3 2).mem 80
        (by decide)).2 (by decide) rfl).1⟩

/-- C3: the raw allocation size requested from the provider is exactly
`header_size_with_padding + item_count * item_size + trailer_size`, with no
silent wrap in any addition or multiplication; when the checked arithmetic
overflows the platform size limit, `zcalloc` returns null and `HeapAlloc`
is never invoked. -/
theorem claim3_size_arithmetic (p : Platform) (key : Nat)
    (rawAlloc : Option Nat) (m : Mem) (items size : Nat) (hp : p.ok)
    (hitems : items < 2 ^ 32) (hsize : size < 2 ^ 32) :
    (items * size + (headerCookieSizeWithPadding p + trailerCookieSize p)
        < p.wordSize →
      (zcalloc p key rawAlloc m items size).rawAllocRequest
        = some (items * size
            + (headerCookieSizeWithPadding p + trailerCookieSize p), items == 1))
    ∧ (p.wordSize
        ≤ items * size + (headerCookieSizeWithPadding p + trailerCookieSize p) →
      (zcalloc p key rawAlloc m items size).ret = none
      ∧ (zcalloc p key rawAlloc m items size).rawAllocRequest = none) := by
  constructor
  · intro h
    exact zcalloc_request_eq p key rawAlloc m items size h
  · intro h
    rw [zcalloc_overflow_eq p key rawAlloc m items size hp hitems hsize h]
    exact ⟨rfl, rfl⟩

/-- C3 witness: on win32, `items = size = 2^16` overflows the size limit, so
`zcalloc` returns null without any raw allocation. -/
theorem claim3_witness :
    win32.ok
    ∧ (2 ^ 16 : Nat) < 2 ^ 32
    ∧ (2 ^ 16 : Nat) < 2 ^ 32
    ∧ win32.wordSize
        ≤ 2 ^ 16 * 2 ^ 16 + (headerCookieSizeWithPadding win32
            + trailerCookieSize win32)
    ∧ ((zcalloc win32 0 none (fun _ => 0) (2 ^ 16) (2 ^ 16)).ret = none
        ∧ (zcalloc win32 0 none (fun _ => 0) (2 ^ 16) (2 ^ 16)).rawAllocRequest
            = none) :=
  ⟨Or.inr rfl, by decide, by decide, by decide,
    (claim3_size_arithmetic win32 0 none (fun _ => 0) (2 ^ 16) (2 ^ 16)
      (Or.inr rfl) (by decide) (by decide)).2 (by decide)⟩

/-- C9: `zcfree` on a null pointer returns normally, performs no cookie
validation, no raw free call, and leaves memory untouched. -/
theorem claim9_null_free_noop (p : Platform) (key : Nat) (heapFreeOk : Bool)
    (m : Mem) :
    (zcfree p key heapFreeOk m 0).fault = none
    ∧ (zcfree p key heapFreeOk m 0).mem = m
    ∧ (zcfree p key heapFreeOk m 0).rawFree = none :=
  ⟨rfl, rfl, rfl⟩

/-- C4: the returned pointer is the raw block start plus the header cookie
size rounded up to the platform allocation alignment; the trailer cookie
token is written at exactly `returned_pointer + requested_size` (no padding);
and the `item_count * item_size` user bytes are disjoint from both cookies:
writing them and reading them back yields the written bytes unchanged, while
all four cookie fields are unaffected by those writes. -/
theorem claim4_layout_and_user_region (p : Platform) (key base : Nat)
    (m : Mem) (items size : Nat) (hp : p.ok) (hkey : key < p.wordSize)
    (hNoOv : items * size + (headerCookieSizeWithPadding p + trailerCookieSize p)
        < p.wordSize)
    (hfit : base + (headerCookieSizeWithPadding p + items * size
        + trailerCookieSize p) ≤ p.wordSize) :
    (zcalloc p key (some base) m items size).ret
        = some (base + p.align * ((sizeofCookie p + p.align - 1) / p.align))
    ∧ readWord p (zcalloc p key (some base) m items size).mem
        (base + headerCookieSizeWithPadding p + items * size)
        = EncodePointer key (base + headerCookieSizeWithPadding p + items * size)
    ∧ (∀ data : Nat → Nat, ∀ i, i < items * size →
        writeUserBytes (zcalloc p key (some base) m items size).mem
          (base + headerCookieSizeWithPadding p) (items * size) data
          (base + headerCookieSizeWithPadding p + i) = data i)
    ∧ (∀ data : Nat → Nat,
        readWord p (writeUserBytes (zcalloc p key (some base) m items size).mem
            (base + headerCookieSizeWithPadding p) (items * size) data) base
          = readWord p (zcalloc p key (some base) m items size).mem base
        ∧ readWord p (writeUserBytes (zcalloc p key (some base) m items size).mem
            (base + headerCookieSizeWithPadding p) (items * size) data)
            (base + p.wordBytes)
          = readWord p (zcalloc p key (some base) m items size).mem
              (base + p.wordBytes)
        ∧ readWord p (writeUserBytes (zcalloc p key (some base) m items size).mem
            (base + headerCookieSizeWithPadding p) (items * size) data)
            (base + headerCookieSizeWithPadding p + items * size)
          = readWord p (zcalloc p key (some base) m items size).mem
              (base + headerCookieSizeWithPadding p + items * size)
        ∧ readWord p (writeUserBytes (zcalloc p key (some base) m items size).mem
            (base + headerCookieSizeWithPadding p) (items * size) data)
            (base + headerCookieSizeWithPadding p + items * size + p.wordBytes)
          = readWord p (zcalloc p key (some base) m items size).mem
              (base + headerCookieSizeWithPadding p + items * size + p.wordBytes)) := by
  obtain ⟨h2, hwb4, hws, hover⟩ := Platform.ok_facts hp
  obtain ⟨r1, r2, r3, r4, r5⟩ :=
    zcalloc_mem_reads p key base m items size hp hkey hNoOv hfit
  refine ⟨?_, r3, ?_, ?_⟩
  · rw [zcalloc_some_eq p key base m items size hNoOv,
      headerCookieSizeWithPadding_round hp]
  · intro data i hi
    exact writeUserBytes_apply_in _ _ _ data i hi
  · intro data
    refine ⟨?_, ?_, ?_, ?_⟩
    · apply readWord_congr
      intro i hi
      exact writeUserBytes_apply_out _ _ _ data _ (by omega)
    · apply readWord_congr
      intro i hi
      exact writeUserBytes_apply_out _ _ _ data _ (by omega)
    · apply readWord_congr
      intro i hi
      exact writeUserBytes_apply_out _ _ _ data _ (by omega)
    · apply readWord_congr
      intro i hi
      exact writeUserBytes_apply_out _ _ _ data _ (by omega)

/-- C4 witness: the concrete 6-byte allocation at raw base 64 on win64. -/
theorem claim4_witness :
    win64.ok
    ∧ (5 : Nat) < win64.wordSize
    ∧ 3 * 2 + (headerCookieSizeWithPadding win64 + trailerCookieSize win64)
        < win64.wordSize
    ∧ 64 + (headerCookieSizeWithPadding win64 + 3 * 2 + trailerCookieSize win64)
        ≤ win64.wordSize
    ∧ (zcalloc win64 5 (some 64) (fun _ => 0) 3 2).ret
        = some (64 + win64.align
            * ((sizeofCookie win64 + win64.align - 1) / win64.align))
    ∧ (∀ data : Nat → Nat, ∀ i, i < 3 * 2 →
        writeUserBytes (zcalloc win64 5 (some 64) (fun _ => 0) 3 2).mem
          (64 + headerCookieSizeWithPadding win64) (3 * 2) data
          (64 + headerCookieSizeWithPadding win64 + i) = data i) :=
  ⟨Or.inl rfl, by decide, by decide, by decide,
    (claim4_layout_and_user_region win64 5 64 (fun _ => 0) 3 2 (Or.inl rfl)
      (by decide) (by decide) (by decide)).1,
    (claim4_layout_and_user_region win64 5 64 (fun _ => 0) 3 2 (Or.inl rfl)
      (by decide) (by decide) (by decide)).2.2.1⟩

/-- C5: for every live allocation, the header's clear size field and the
decoded trailer size field both equal the originally requested byte count
`item_count * item_size`; this holds at creation and in every memory state
that agrees with the creation state on the two cookies (i.e. under any
mutation that does not touch the cookie bytes, which no allocator operation
does during the allocation's lifetime). -/
theorem claim5_size_roundtrip (p : Platform) (key base : Nat) (m : Mem)
    (items size : Nat) (hp : p.ok) (hkey : key < p.wordSize)
    (hNoOv : items * size + (headerCookieSizeWithPadding p + trailerCookieSize p)
        < p.wordSize)
    (hfit : base + (headerCookieSizeWithPadding p + items * size
        + trailerCookieSize p) ≤ p.wordSize) :
    ∀ m₂ : Mem,
      (∀ i, i < sizeofCookie p →
        m₂ (base + i) = (zcalloc p key (some base) m items size).mem (base + i)) →
      (∀ i, i < trailerCookieSize p →
        m₂ (base + headerCookieSizeWithPadding p + items * size + i)
          = (zcalloc p key (some base) m items size).mem
              (base + headerCookieSizeWithPadding p + items * size + i)) →
      readWord p m₂ (base + p.wordBytes) = items * size
      ∧ DecodePointer key (readWord p m₂
          (base + headerCookieSizeWithPadding p + items * size + p.wordBytes))
        = items * size := by
  obtain ⟨h2, hwb4, hws, hover⟩ := Platform.ok_facts hp
  obtain ⟨r1, r2, r3, r4, r5⟩ :=
    zcalloc_mem_reads p key base m items size hp hkey hNoOv hfit
  intro m₂ hH hT
  have hsc : sizeofCookie p = 2 * p.wordBytes := rfl
  have htc : trailerCookieSize p = 2 * p.wordBytes := rfl
  constructor
  · rw [readWord_congr p m₂ (zcalloc p key (some base) m items size).mem
      (base + p.wordBytes) ?_]
    · exact r2
    · intro i hi
      rw [Nat.add_assoc]
      exact hH (p.wordBytes + i) (by omega)
  · rw [readWord_congr p m₂ (zcalloc p key (some base) m items size).mem
      (base + headerCookieSizeWithPadding p + items * size + p.wordBytes) ?_]
    · rw [r4, DecodePointer_EncodePointer]
    · intro i hi
      rw [Nat.add_assoc (base + headerCookieSizeWithPadding p + items * size)]
      exact hT (p.wordBytes + i) (by omega)

/-- C5 witness: the creation-time state itself satisfies the round-trip. -/
theorem claim5_witness :
    win64.ok
    ∧ (5 : Nat) < win64.wordSize
    ∧ 3 * 2 + (headerCookieSizeWithPadding win64 + trailerCookieSize win64)
        < win64.wordSize
    ∧ 64 + (headerCookieSizeWithPadding win64 + 3 * 2 + trailerCookieSize win64)
        ≤ win64.wordSize
    ∧ (readWord win64 (zcalloc win64 5 (some 64) (fun _ => 0) 3 2).mem
          (64 + win64.wordBytes) = 3 * 2
        ∧ DecodePointer 5 (readWord win64
            (zcalloc win64 5 (some 64) (fun _ => 0) 3 2).mem
            (64 + headerCookieSizeWithPadding win64 + 3 * 2 + win64.wordBytes))
          = 3 * 2) :=
  ⟨Or.inl rfl, by decide, by decide, by decide,
    claim5_size_roundtrip win64 5 64 (fun _ => 0) 3 2 (Or.inl rfl)
      (by decide) (by decide) (by decide)
      (zcalloc win64 5 (some 64) (fun _ => 0) 3 2).mem
      (fun _ _ => rfl) (fun _ _ => rfl)⟩

/-- C6: if `item_count = 1`, the raw allocation request carries the
zero-fill flag and the returned user region is entirely zero before any
write; for every other `item_count` the request does not ask for zero-fill
and the user region is left exactly as it was (uninitialized). -/
theorem claim6_zero_fill (p : Platform) (key base : Nat) (m : Mem)
    (items size : Nat) (hp : p.ok) (hkey : key < p.wordSize)
    (hNoOv : items * size + (headerCookieSizeWithPadding p + trailerCookieSize p)
        < p.wordSize)
    (hfit : base + (headerCookieSizeWithPadding p + items * size
        + trailerCookieSize p) ≤ p.wordSize) :
    (items = 1 →
      (zcalloc p key (some base) m items size).rawAllocRequest
        = some (items * size
            + (headerCookieSizeWithPadding p + trailerCookieSize p), true)
      ∧ ∀ i, i < items * size →
          (zcalloc p key (some base) m items size).mem
            (base + headerCookieSizeWithPadding p + i) = 0)
    ∧ (items ≠ 1 →
      (zcalloc p key (some base) m items size).rawAllocRequest
        = some (items * size
            + (headerCookieSizeWithPadding p + trailerCookieSize p), false)
      ∧ ∀ i, i < items * size →
          (zcalloc p key (some base) m items size).mem
            (base + headerCookieSizeWithPadding p + i)
            = m (base + headerCookieSizeWithPadding p + i)) := by
  obtain ⟨h2, hwb4, hws, hover⟩ := Platform.ok_facts hp
  obtain ⟨r1, r2, r3, r4, r5⟩ :=
    zcalloc_mem_reads p key base m items size hp hkey hNoOv hfit
  constructor
  · intro h1
    have hb : (items == 1) = true := by simp [h1]
    constructor
    · rw [zcalloc_request_eq p key (some base) m items size hNoOv, hb]
    · intro i hi
      rw [r5 (base + headerCookieSizeWithPadding p + i) (by omega) (by omega)]
      rw [if_pos h1]
  · intro h1
    have hb : (items == 1) = false := by simp [h1]
    constructor
    · rw [zcalloc_request_eq p key (some base) m items size hNoOv, hb]
    · intro i hi
      rw [r5 (base + headerCookieSizeWithPadding p + i) (by omega) (by omega)]
      rw [if_neg h1]

/-- C6 witness: `items = 1` gives a zero-filled region on a dirty memory;
evaluated via the theorem at `items = 1, size = 4`. -/
theorem claim6_witness :
    win64.ok
    ∧ (5 : Nat) < win64.wordSize
    ∧ 1 * 4 + (headerCookieSizeWithPadding win64 + trailerCookieSize win64)
        < win64.wordSize
    ∧ 64 + (headerCookieSizeWithPadding win64 + 1 * 4 + trailerCookieSize win64)
        ≤ win64.wordSize
    ∧ (1 : Nat) = 1
    ∧ ((zcalloc win64 5 (some 64) (fun _ => 7) 1 4).rawAllocRequest
        = some (1 * 4
            + (headerCookieSizeWithPadding win64 + trailerCookieSize win64), true)
      ∧ ∀ i, i < 1 * 4 →
          (zcalloc win64 5 (some 64) (fun _ => 7) 1 4).mem
            (64 + headerCookieSizeWithPadding win64 + i) = 0) :=
  ⟨Or.inl rfl, by decide, by decide, by decide, rfl,
    (claim6_zero_fill win64 5 64 (fun _ => 7) 1 4 (Or.inl rfl)
      (by decide) (by decide) (by decide)).1 rfl⟩

/-- C7: on a non-null pointer, the cookies are tombstoned (token
`0xDEADBEEF`, size fields zero) only after all three checks pass, and the
memory handed to the raw free operation is exactly the tombstoned memory —
so a read of a freed cookie sees the tombstone, never stale validation
data; when any check fails, memory is left untouched and the raw free is
never invoked. -/
theorem claim7_tombstone_before_free (p : Platform) (key : Nat)
    (heapFreeOk : Bool) (m : Mem) (ptr : Nat) (hp : p.ok)
    (hptr : headerCookieSizeWithPadding p ≤ ptr) :
    (cookieChecksPass p key m ptr →
      (zcfree p key heapFreeOk m ptr).rawFree
        = some (ptr - headerCookieSizeWithPadding p,
            (zcfree p key heapFreeOk m ptr).mem)
      ∧ readWord p (zcfree p key heapFreeOk m ptr).mem
          (ptr - headerCookieSizeWithPadding p) = 0xDEADBEEF
      ∧ readWord p (zcfree p key heapFreeOk m ptr).mem
          (ptr - headerCookieSizeWithPadding p + p.wordBytes) = 0
      ∧ readWord p (zcfree p key heapFreeOk m ptr).mem
          (ptr + readWord p m
            (ptr - headerCookieSizeWithPadding p + p.wordBytes)) = 0xDEADBEEF
      ∧ readWord p (zcfree p key heapFreeOk m ptr).mem
          (ptr + readWord p m
            (ptr - headerCookieSizeWithPadding p + p.wordBytes) + p.wordBytes)
          = 0)
    ∧ (¬ cookieChecksPass p key m ptr →
      (zcfree p key heapFreeOk m ptr).mem = m
      ∧ (zcfree p key heapFreeOk m ptr).rawFree = none) := by
  obtain ⟨h2, hwb4, hws, hover⟩ := Platform.ok_facts hp
  have hptr0 : ptr ≠ 0 := by omega
  constructor
  · intro h
    rw [zcfree_pass_eq p key heapFreeOk m ptr hptr0 h]
    obtain ⟨t1, t2, t3, t4⟩ := trash2_reads p m
      (ptr - headerCookieSizeWithPadding p)
      (ptr + readWord p m (ptr - headerCookieSizeWithPadding p + p.wordBytes))
      (by omega) (by omega) (by omega)
    exact ⟨rfl, t1, t2, t3, t4⟩
  · intro h
    rw [zcfree_not_pass_eq p key heapFreeOk m ptr hptr0 h]
    exact ⟨rfl, rfl⟩

/-- C7 witness: the concrete healthy allocation at raw base 64 on win64. -/
theorem claim7_witness :
    win64.ok
    ∧ headerCookieSizeWithPadding win64 ≤ 80
    ∧ cookieChecksPass win64 5 (zcalloc win64 5 (some 64) (fun _ => 0) 3 2).mem 80
    ∧ readWord win64
        (zcfree win64 5 true (zcalloc win64 5 (some 64) (fun _ => 0) 3 2).mem
          80).mem (80 - headerCookieSizeWithPadding win64) = 0xDEADBEEF :=
  ⟨Or.inl rfl, by decide, by decide,
    ((claim7_tombstone_before_free win64 5 true
        (zcalloc win64 5 (some 64) (fun _ => 0) 3 2).mem 80 (Or.inl rfl)
        (by decide)).1 (by decide)).2.1⟩

/-- C8: calling `zcfree` twice on the same non-null pointer (no intervening
reallocation) is detected on the second call: the tombstoned header token
decodes to `0xDEADBEEF ^^^ key`, which differs from the header address (the
hypothesis `hK` — with a genuinely secret per-process key the two collide
for only a single pathological key value), so the second call takes the
fatal path without invoking the raw free, rather than being silently
accepted. -/
theorem claim8_double_free_detected (p : Platform) (key base : Nat) (m : Mem)
    (items size : Nat) (heapFreeOk2 : Bool) (hp : p.ok)
    (hkey : key < p.wordSize)
    (hNoOv : items * size + (headerCookieSizeWithPadding p + trailerCookieSize p)
        < p.wordSize)
    (hfit : base + (headerCookieSizeWithPadding p + items * size
        + trailerCookieSize p) ≤ p.wordSize)
    (hK : DecodePointer key 0xDEADBEEF ≠ base) :
    (zcfree p key heapFreeOk2
      (zcfree p key true (zcalloc p key (some base) m items size).mem
        (base + headerCookieSizeWithPadding p)).mem
      (base + headerCookieSizeWithPadding p)).fault
        = some Fault.heapMetadataCorruption
    ∧ (zcfree p key heapFreeOk2
        (zcfree p key true (zcalloc p key (some base) m items size).mem
          (base + headerCookieSizeWithPadding p)).mem
        (base + headerCookieSizeWithPadding p)).rawFree = none := by
  obtain ⟨h2, hwb4, hws, hover⟩ := Platform.ok_facts hp
  obtain ⟨r1, r2, r3, r4, r5⟩ :=
    zcalloc_mem_reads p key base m items size hp hkey hNoOv hfit
  have hpass := cookieChecksPass_after_zcalloc p key base m items size hp hkey
    hNoOv hfit
  have hptr0 : base + headerCookieSizeWithPadding p ≠ 0 := by omega
  have hsub : base + headerCookieSizeWithPadding p - headerCookieSizeWithPadding p
      = base := by omega
  rw [zcfree_pass_eq p key true _ _ hptr0 hpass]
  dsimp only
  rw [hsub, r2]
  obtain ⟨t1, t2, t3, t4⟩ := trash2_reads p
    (zcalloc p key (some base) m items size).mem base
    (base + headerCookieSizeWithPadding p + items * size)
    (by omega) (by omega) (by omega)
  have hfail : ¬ cookieChecksPass p key
      (zcfree_trash_cookie p
        (zcfree_trash_cookie p (zcalloc p key (some base) m items size).mem base)
        (base + headerCookieSizeWithPadding p + items * size))
      (base + headerCookieSizeWithPadding p) := by
    intro hcon
    obtain ⟨c1, -, -⟩ := hcon
    rw [hsub, t1] at c1
    exact hK c1
  rw [zcfree_not_pass_eq p key heapFreeOk2 _ _ hptr0 hfail]
  exact ⟨rfl, rfl⟩

/-- C8 witness: double free of the concrete allocation at raw base 64. -/
theorem claim8_witness :
    win64.ok
    ∧ (5 : Nat) < win64.wordSize
    ∧ 3 * 2 + (headerCookieSizeWithPadding win64 + trailerCookieSize win64)
        < win64.wordSize
    ∧ 64 + (headerCookieSizeWithPadding win64 + 3 * 2 + trailerCookieSize win64)
        ≤ win64.wordSize
    ∧ DecodePointer 5 0xDEADBEEF ≠ 64
    ∧ ((zcfree win64 5 true
          (zcfree win64 5 true (zcalloc win64 5 (some 64) (fun _ => 0) 3 2).mem
            (64 + headerCookieSizeWithPadding win64)).mem
          (64 + headerCookieSizeWithPadding win64)).fault
            = some Fault.heapMetadataCorruption
        ∧ (zcfree win64 5 true
            (zcfree win64 5 true (zcalloc win64 5 (some 64) (fun _ => 0) 3 2).mem
              (64 + headerCookieSizeWithPadding win64)).mem
            (64 + headerCookieSizeWithPadding win64)).rawFree = none) :=
  ⟨Or.inl rfl, by decide, by decide, by decide, by decide,
    claim8_double_free_detected win64 5 64 (fun _ => 0) 3 2 true (Or.inl rfl)
      (by decide) (by decide) (by decide) (by decide)⟩

/-- C10: a zero-byte request (`item_count = 0` or `item_size = 0`) is not an
error: `zcalloc` still makes one raw allocation of exactly the padded header
size plus the trailer size, writes the trailer cookie token at the returned
pointer itself, returns a non-null pointer whenever the raw allocation
succeeds, and `zcfree` on that pointer passes all three checks and returns
without fault. -/
theorem claim10_zero_byte_request (p : Platform) (key base : Nat) (m : Mem)
    (items size : Nat) (hp : p.ok) (hkey : key < p.wordSize)
    (hzero : items = 0 ∨ size = 0)
    (hfit : base + (headerCookieSizeWithPadding p + trailerCookieSize p)
        ≤ p.wordSize) :
    (zcalloc p key (some base) m items size).rawAllocRequest
        = some (headerCookieSizeWithPadding p + trailerCookieSize p, items == 1)
    ∧ (zcalloc p key (some base) m items size).ret
        = some (base + headerCookieSizeWithPadding p)
    ∧ base + headerCookieSizeWithPadding p ≠ 0
    ∧ readWord p (zcalloc p key (some base) m items size).mem
        (base + headerCookieSizeWithPadding p)
        = EncodePointer key (base + headerCookieSizeWithPadding p)
    ∧ cookieChecksPass p key (zcalloc p key (some base) m items size).mem
        (base + headerCookieSizeWithPadding p)
    ∧ (zcfree p key true (zcalloc p key (some base) m items size).mem
        (base + headerCookieSizeWithPadding p)).fault = none := by
  obtain ⟨h2, hwb4, hws, hover⟩ := Platform.ok_facts hp
  have hz : items * size = 0 := by
    rcases hzero with h | h
    · rw [h, Nat.zero_mul]
    · rw [h, Nat.mul_zero]
  have hNoOv : items * size
      + (headerCookieSizeWithPadding p + trailerCookieSize p) < p.wordSize := by
    omega
  have hfit' : base + (headerCookieSizeWithPadding p + items * size
      + trailerCookieSize p) ≤ p.wordSize := by omega
  obtain ⟨r1, r2, r3, r4, r5⟩ :=
    zcalloc_mem_reads p key base m items size hp hkey hNoOv hfit'
  have hpass := cookieChecksPass_after_zcalloc p key base m items size hp hkey
    hNoOv hfit'
  refine ⟨?_, ?_, by omega, ?_, hpass, ?_⟩
  · rw [zcalloc_request_eq p key (some base) m items size hNoOv, hz,
      Nat.zero_add]
  · rw [zcalloc_some_eq p key base m items size hNoOv]
  · have := r3
    rw [hz, Nat.add_zero] at this
    exact this
  · rw [zcfree_pass_eq p key true _ _ (by omega) hpass]
    rfl

/-- C10 witness: `items = 0, size = 7` on win64 at raw base 64. -/
theorem claim10_witness :
    win64.ok
    ∧ (5 : Nat) < win64.wordSize
    ∧ ((0 : Nat) = 0 ∨ (7 : Nat) = 0)
    ∧ 64 + (headerCookieSizeWithPadding win64 + trailerCookieSize win64)
        ≤ win64.wordSize
    ∧ ((zcalloc win64 5 (some 64) (fun _ => 0) 0 7).rawAllocRequest
          = some (headerCookieSizeWithPadding win64 + trailerCookieSize win64,
              (0 : Nat) == 1)
        ∧ (zcalloc win64 5 (some 64) (fun _ => 0) 0 7).ret
            = some (64 + headerCookieSizeWithPadding win64)
        ∧ (64 : Nat) + headerCookieSizeWithPadding win64 ≠ 0
        ∧ readWord win64 (zcalloc win64 5 (some 64) (fun _ => 0) 0 7).mem
            (64 + headerCookieSizeWithPadding win64)
            = EncodePointer 5 (64 + headerCookieSizeWithPadding win64)
        ∧ cookieChecksPass win64 5 (zcalloc win64 5 (some 64) (fun _ => 0) 0 7).mem
            (64 + headerCookieSizeWithPadding win64)
        ∧ (zcfree win64 5 true (zcalloc win64 5 (some 64) (fun _ => 0) 0 7).mem
            (64 + headerCookieSizeWithPadding win64)).fault = none) :=
  ⟨Or.inl rfl, by decide, Or.inl rfl, by decide,
    claim10_zero_byte_request win64 5 64 (fun _ => 0) 0 7 (Or.inl rfl)
      (by decide) (Or.inl rfl) (by decide)⟩

end DotnetAllocator
